import Mathlib

/-!
Verification of the telemetry-synchronization core of the enzyme-frontend
repository: the time-series merge buffer (`getChartData` in the sensor
monitoring page), the reconnecting push channel (`useWebSocket`), the
polling fetchers, and the mutation/invalidation discipline of the request
cache layer.  Each definition is a shallow embedding of the corresponding
TypeScript function; machine arithmetic on timestamps is modelled with
`Int` (epoch milliseconds, the value of `Date.prototype.getTime`) and the
`/ 10` fixed-point scaling with exact rational division.
-/

namespace EnzymeFrontend

/-! ### Data model (shared/schema.ts)

`SensorReading` rows carry fixed-point tenths (`456 = 45.6 °C`); the chart
points (`SensorDataPoint`) carry the scaled values and a `Date` timestamp,
compared via `getTime()`, which we represent directly as epoch
milliseconds. -/

structure SensorReading where
  roomId : String
  temperature : Int
  humidity : Int
  timestamp : Int
deriving DecidableEq, Repr

structure SensorDataPoint where
  timestamp : Int
  temperature : ℚ
  humidity : ℚ
deriving DecidableEq, Repr

/-- The transformation applied to a REST-fetched reading in `getChartData`
(`{ timestamp: new Date(r.timestamp), temperature: r.temperature / 10,
humidity: r.humidity / 10 }`); the identical transformation is applied to a
live reading in the `onSensorReading` callback of `SensorMonitoring`. -/
def toDataPoint (r : SensorReading) : SensorDataPoint :=
  { timestamp := r.timestamp
    temperature := (r.temperature : ℚ) / 10
    humidity := (r.humidity : ℚ) / 10 }

/-! ### The merge buffer (`getChartData`, sensor monitoring page)

```js
const combined = [...dbData, ...wsData].sort((a, b) =>
  a.timestamp.getTime() - b.timestamp.getTime());
const unique = combined.filter((item, index, arr) =>
  arr.findIndex(i => i.timestamp.getTime() === item.timestamp.getTime()) === index
).slice(-50);
```

`Array.prototype.sort` is stable (ECMAScript 2019), so the comparator
`a.ts - b.ts` yields an ascending stable sort by timestamp; we embed it as
a left-to-right insertion sort in which each element is inserted *after*
every already-placed element of smaller-or-equal timestamp, which preserves
the relative order of equal-timestamp elements exactly as a stable sort
does.

The `filter` keeps `item` at position `index` precisely when
`findIndex` — the *first* index whose timestamp equals `item`'s — is
`index` itself, i.e. exactly when no earlier element of the array has the
same timestamp.  We embed it by threading the already-scanned prefix
(`seen`) and dropping an element whose timestamp already occurred.

`slice(-50)` keeps the last (at most) 50 elements. -/

/-- Insert `x` after every element of `acc` whose timestamp is `≤ x`'s. -/
def insertPt (x : SensorDataPoint) : List SensorDataPoint → List SensorDataPoint
  | [] => [x]
  | y :: ys => if y.timestamp ≤ x.timestamp then y :: insertPt x ys else x :: y :: ys

/-- Stable ascending sort by timestamp (the semantics of
`combined.sort((a, b) => a.timestamp.getTime() - b.timestamp.getTime())`). -/
def sortByTs (l : List SensorDataPoint) : List SensorDataPoint :=
  l.foldl (fun acc x => insertPt x acc) []

/-- The `filter`/`findIndex` deduplication: an element is kept iff no
element before it in the array (the `seen` prefix, scanned order
irrelevant) has the same timestamp. -/
def dedupByFirstTs (seen : List SensorDataPoint) :
    List SensorDataPoint → List SensorDataPoint
  | [] => []
  | x :: xs =>
    if seen.any (fun y => y.timestamp == x.timestamp) then
      dedupByFirstTs (x :: seen) xs
    else
      x :: dedupByFirstTs (x :: seen) xs

/-- The merge pipeline of `getChartData` on already-converted chart points:
concatenate, stable-sort by timestamp, deduplicate keeping first
occurrences, `slice(-50)`. -/
def mergePoints (dbData wsData : List SensorDataPoint) : List SensorDataPoint :=
  let combined := sortByTs (dbData ++ wsData)
  let unique := dedupByFirstTs [] combined
  unique.drop (unique.length - 50)

/-- `getChartData(roomId, readings)` up to the final purely presentational
`map` to `{time: toLocaleTimeString(...), temperature, humidity}`: the
merged sequence `unique` that determines the chart.  `wsData` is the
rolling window of live points held in `sensorDataMap` for the room. -/
def getChartData (readings : List SensorReading)
    (wsData : List SensorDataPoint) : List SensorDataPoint :=
  mergePoints (readings.map toDataPoint) wsData

/-! ### Ordering and duplicate-freedom of the merge output -/

/-- Non-decreasing timestamps. -/
def TsSorted (l : List SensorDataPoint) : Prop :=
  l.Pairwise fun a b => a.timestamp ≤ b.timestamp

/-- No two entries share a timestamp. -/
def TsNodup (l : List SensorDataPoint) : Prop :=
  l.Pairwise fun a b => a.timestamp ≠ b.timestamp

theorem mem_insertPt {a x : SensorDataPoint} :
    ∀ {l : List SensorDataPoint}, a ∈ insertPt x l ↔ a = x ∨ a ∈ l := by
  intro l
  induction l with
  | nil => simp [insertPt]
  | cons y ys ih =>
    by_cases h : y.timestamp ≤ x.timestamp
    · simp only [insertPt, if_pos h, List.mem_cons, ih]
      tauto
    · simp only [insertPt, if_neg h, List.mem_cons]

theorem insertPt_sorted {x : SensorDataPoint} :
    ∀ {l : List SensorDataPoint}, TsSorted l → TsSorted (insertPt x l) := by
  intro l
  induction l with
  | nil => intro _; simp [insertPt, TsSorted]
  | cons y ys ih =>
    intro h
    rcases List.pairwise_cons.mp h with ⟨hy, hys⟩
    by_cases hle : y.timestamp ≤ x.timestamp
    · simp only [insertPt, if_pos hle]
      refine List.pairwise_cons.mpr ⟨?_, ih hys⟩
      intro b hb
      rcases mem_insertPt.mp hb with rfl | hbys
      · exact hle
      · exact hy b hbys
    · simp only [insertPt, if_neg hle]
      refine List.pairwise_cons.mpr ⟨?_, h⟩
      intro b hb
      have hxy : x.timestamp ≤ y.timestamp := le_of_not_le hle
      rcases List.mem_cons.mp hb with rfl | hbys
      · exact hxy
      · exact le_trans hxy (hy b hbys)

theorem foldl_insertPt_sorted :
    ∀ (l : List SensorDataPoint) (acc : List SensorDataPoint), TsSorted acc →
      TsSorted (l.foldl (fun acc x => insertPt x acc) acc) := by
  intro l
  induction l with
  | nil => intro acc h; exact h
  | cons x xs ih =>
    intro acc h
    exact ih (insertPt x acc) (insertPt_sorted h)

theorem sortByTs_sorted (l : List SensorDataPoint) : TsSorted (sortByTs l) :=
  foldl_insertPt_sorted l [] (List.Pairwise.nil)

theorem dedupByFirstTs_sublist :
    ∀ (l seen : List SensorDataPoint), List.Sublist (dedupByFirstTs seen l) l := by
  intro l
  induction l with
  | nil => intro seen; simp [dedupByFirstTs]
  | cons x xs ih =>
    intro seen
    by_cases h : seen.any (fun y => y.timestamp == x.timestamp)
    · simp only [dedupByFirstTs, if_pos h]
      exact (ih (x :: seen)).cons x
    · simp only [dedupByFirstTs, if_neg h]
      exact (ih (x :: seen)).cons₂ x

theorem dedupByFirstTs_mem_not_seen :
    ∀ (l seen : List SensorDataPoint) (a : SensorDataPoint),
      a ∈ dedupByFirstTs seen l → ∀ s ∈ seen, a.timestamp ≠ s.timestamp := by
  intro l
  induction l with
  | nil => intro seen a ha; simp [dedupByFirstTs] at ha
  | cons x xs ih =>
    intro seen a ha s hs
    by_cases h : seen.any (fun y => y.timestamp == x.timestamp)
    · simp only [dedupByFirstTs, if_pos h] at ha
      exact ih (x :: seen) a ha s (List.mem_cons_of_mem x hs)
    · simp only [dedupByFirstTs, if_neg h] at ha
      rcases List.mem_cons.mp ha with rfl | ha'
      · intro heq
        apply h
        rw [List.any_eq_true]
        exact ⟨s, hs, by simp [heq]⟩
      · exact ih (x :: seen) a ha' s (List.mem_cons_of_mem x hs)

theorem dedupByFirstTs_ts_nodup :
    ∀ (l seen : List SensorDataPoint), TsNodup (dedupByFirstTs seen l) := by
  intro l
  induction l with
  | nil => intro seen; simp [dedupByFirstTs, TsNodup]
  | cons x xs ih =>
    intro seen
    by_cases h : seen.any (fun y => y.timestamp == x.timestamp)
    · simp only [dedupByFirstTs, if_pos h]
      exact ih (x :: seen)
    · simp only [dedupByFirstTs, if_neg h]
      refine List.pairwise_cons.mpr ⟨?_, ih (x :: seen)⟩
      intro b hb
      have := dedupByFirstTs_mem_not_seen xs (x :: seen) b hb x (List.mem_cons_self x seen)
      exact fun heq => this heq.symm

theorem tsSorted_of_sublist {l₁ l₂ : List SensorDataPoint}
    (h : List.Sublist l₁ l₂) (hs : TsSorted l₂) : TsSorted l₁ :=
  hs.sublist h

theorem tsNodup_of_sublist {l₁ l₂ : List SensorDataPoint}
    (h : List.Sublist l₁ l₂) (hs : TsNodup l₂) : TsNodup l₁ :=
  hs.sublist h

theorem mergePoints_sorted (db ws : List SensorDataPoint) :
    TsSorted (mergePoints db ws) := by
  have h : TsSorted (dedupByFirstTs [] (sortByTs (db ++ ws))) :=
    tsSorted_of_sublist (dedupByFirstTs_sublist _ []) (sortByTs_sorted _)
  exact tsSorted_of_sublist (List.drop_sublist _ _) h

theorem mergePoints_nodup (db ws : List SensorDataPoint) :
    TsNodup (mergePoints db ws) :=
  tsNodup_of_sublist (List.drop_sublist _ _) (dedupByFirstTs_ts_nodup _ [])

theorem mergePoints_length_le (db ws : List SensorDataPoint) :
    (mergePoints db ws).length ≤ 50 := by
  show (List.drop _ (dedupByFirstTs [] (sortByTs (db ++ ws)))).length ≤ 50
  rw [List.length_drop]
  omega

/-- C1 -- For every batch of historical readings and every list of live
readings for a room, the merged sequence produced by `getChartData` is
monotonically non-decreasing in timestamp, contains no two entries with
equal timestamp, and has length at most 50. -/
theorem claim_C1_merge_invariants (readings : List SensorReading)
    (wsData : List SensorDataPoint) :
    TsSorted (getChartData readings wsData) ∧
    TsNodup (getChartData readings wsData) ∧
    (getChartData readings wsData).length ≤ 50 :=
  ⟨mergePoints_sorted _ _, mergePoints_nodup _ _, mergePoints_length_le _ _⟩

/-! ### The spec's reference merge algorithm (refinement target for C2)

Second definition, following the spec's words: "concatenates both sources,
sorts ascending by timestamp, removes entries whose timestamp exactly
matches a previous entry (first occurrence wins), then truncates to the
most recent N entries (N = 50)". -/

/-- Remove entries whose timestamp exactly matches a previous entry,
first occurrence wins: fold left, appending an entry only when no
already-kept entry carries its timestamp. -/
def mergeSpecDedup (l : List SensorDataPoint) : List SensorDataPoint :=
  l.foldl
    (fun acc x =>
      if acc.any (fun y => y.timestamp == x.timestamp) then acc else acc ++ [x])
    []

/-- The reference merge of the spec: concatenate, sort ascending by
timestamp, deduplicate, keep the most recent 50 (`List.rtake`). -/
def mergeSpec (batch live : List SensorDataPoint) : List SensorDataPoint :=
  List.rtake (mergeSpecDedup (sortByTs (batch ++ live))) 50

theorem foldl_dedup_eq :
    ∀ (l acc seen : List SensorDataPoint),
      (∀ t : Int, seen.any (fun y => y.timestamp == t) =
        acc.any (fun y => y.timestamp == t)) →
      l.foldl
        (fun acc x =>
          if acc.any (fun y => y.timestamp == x.timestamp) then acc
          else acc ++ [x]) acc
        = acc ++ dedupByFirstTs seen l := by
  intro l
  induction l with
  | nil => intro acc seen _; simp [dedupByFirstTs]
  | cons x xs ih =>
    intro acc seen hts
    by_cases hx : acc.any (fun y => y.timestamp == x.timestamp)
    · have hseen : seen.any (fun y => y.timestamp == x.timestamp) = true := by
        rw [hts x.timestamp]; exact hx
      simp only [List.foldl_cons, if_pos hx, dedupByFirstTs, hseen, if_pos]
      apply ih acc (x :: seen)
      intro t
      rw [List.any_cons]
      by_cases hxt : x.timestamp = t
      · have : acc.any (fun y => y.timestamp == t) = true := by
          rw [← hxt]; exact hx
        simp [hxt, this]
      · simp [hxt, hts t]
    · have hseen : seen.any (fun y => y.timestamp == x.timestamp) = false := by
        rw [hts x.timestamp]; exact Bool.eq_false_iff.mpr hx
      simp only [List.foldl_cons, if_neg hx, dedupByFirstTs, hseen,
        Bool.false_eq_true, if_neg, not_false_iff]
      rw [ih (acc ++ [x]) (x :: seen) ?_]
      · simp
      · intro t
        rw [List.any_cons, List.any_append]
        simp [Bool.or_comm, hts t]

theorem mergeSpecDedup_eq_dedupByFirstTs (l : List SensorDataPoint) :
    mergeSpecDedup l = dedupByFirstTs [] l := by
  have := foldl_dedup_eq l [] [] (fun _ => rfl)
  simpa [mergeSpecDedup] using this

theorem mergePoints_eq_mergeSpec (db ws : List SensorDataPoint) :
    mergePoints db ws = mergeSpec db ws := by
  show List.drop _ _ = _
  rw [mergeSpec, List.rtake, mergeSpecDedup_eq_dedupByFirstTs]

/-- The end-to-end scenario's historical readings at t = 100, 200, 300. -/
def scenarioReadings : List SensorReading :=
  [ { roomId := "R", temperature := 250, humidity := 500, timestamp := 100 }
  , { roomId := "R", temperature := 252, humidity := 502, timestamp := 200 }
  , { roomId := "R", temperature := 254, humidity := 504, timestamp := 300 } ]

/-- The live push for t = 250, converted by `onSensorReading` exactly as
`getChartData` converts historical readings. -/
def scenarioLivePoint : SensorDataPoint :=
  toDataPoint { roomId := "R", temperature := 260, humidity := 510, timestamp := 250 }

/-- C2 -- The merge operation equals the spec's reference algorithm
(concatenate, sort ascending by timestamp, deduplicate keeping first
occurrences, keep the most recent 50), and on the end-to-end scenario
(historical readings at t = 100, 200, 300 plus one live reading at
t = 250) the merged output order is [100, 200, 250, 300]. -/
theorem claim_C2_merge_reference_algorithm :
    (∀ db ws : List SensorDataPoint, mergePoints db ws = mergeSpec db ws) ∧
    (getChartData scenarioReadings [scenarioLivePoint]).map
      (fun p => p.timestamp) = [100, 200, 250, 300] := by
  refine ⟨mergePoints_eq_mergeSpec, ?_⟩
  decide

/-! ### Idempotence of the merge (C5) -/

theorem insertPt_eq_append_of_le (x : SensorDataPoint) :
    ∀ (acc : List SensorDataPoint),
      (∀ a ∈ acc, a.timestamp ≤ x.timestamp) → insertPt x acc = acc ++ [x] := by
  intro acc
  induction acc with
  | nil => intro _; rfl
  | cons y ys ih =>
    intro h
    have hy : y.timestamp ≤ x.timestamp := h y (List.mem_cons_self y ys)
    simp only [insertPt, if_pos hy, List.cons_append, List.cons.injEq, true_and]
    exact ih fun a ha => h a (List.mem_cons_of_mem y ha)

theorem foldl_insertPt_of_sorted :
    ∀ (l acc : List SensorDataPoint), TsSorted acc → TsSorted l →
      (∀ a ∈ acc, ∀ b ∈ l, a.timestamp ≤ b.timestamp) →
      l.foldl (fun acc x => insertPt x acc) acc = acc ++ l := by
  intro l
  induction l with
  | nil => intro acc _ _ _; simp
  | cons x xs ih =>
    intro acc hacc hl hcross
    rcases List.pairwise_cons.mp hl with ⟨hx, hxs⟩
    rw [List.foldl_cons,
      insertPt_eq_append_of_le x acc
        (fun a ha => hcross a ha x (List.mem_cons_self x xs)),
      ih (acc ++ [x]) ?_ hxs ?_]
    · simp
    · refine List.pairwise_append.mpr ⟨hacc, by simp [TsSorted], ?_⟩
      intro a ha b hb
      rw [List.mem_singleton.mp hb]
      exact hcross a ha x (List.mem_cons_self x xs)
    · intro a ha b hb
      rcases List.mem_append.mp ha with ha' | ha'
      · exact hcross a ha' b (List.mem_cons_of_mem x hb)
      · rw [List.mem_singleton.mp ha']
        exact hx b hb

theorem sortByTs_eq_self_of_sorted {l : List SensorDataPoint}
    (h : TsSorted l) : sortByTs l = l := by
  have := foldl_insertPt_of_sorted l [] (List.Pairwise.nil) h (by simp)
  simpa [sortByTs] using this

theorem dedupByFirstTs_eq_self :
    ∀ (l seen : List SensorDataPoint), TsNodup l →
      (∀ a ∈ l, ∀ s ∈ seen, a.timestamp ≠ s.timestamp) →
      dedupByFirstTs seen l = l := by
  intro l
  induction l with
  | nil => intro seen _ _; rfl
  | cons x xs ih =>
    intro seen hnd hfresh
    rcases List.pairwise_cons.mp hnd with ⟨hx, hxs⟩
    have hany : seen.any (fun y => y.timestamp == x.timestamp) = false := by
      rw [List.any_eq_false]
      intro y hy
      simpa using (hfresh x (List.mem_cons_self x xs) y hy).symm
    simp only [dedupByFirstTs, hany, Bool.false_eq_true, if_neg, not_false_iff,
      List.cons.injEq, true_and]
    apply ih (x :: seen) hxs
    intro a ha s hs
    rcases List.mem_cons.mp hs with rfl | hs'
    · exact fun heq => hx a ha heq.symm
    · exact hfresh a (List.mem_cons_of_mem x ha) s hs'

theorem mergePoints_empty_right {X : List SensorDataPoint}
    (hs : TsSorted X) (hn : TsNodup X) (hlen : X.length ≤ 50) :
    mergePoints X [] = X := by
  show List.drop _ _ = X
  rw [List.append_nil, sortByTs_eq_self_of_sorted hs,
    dedupByFirstTs_eq_self X [] hn (by simp)]
  have : X.length - 50 = 0 := by omega
  rw [this, List.drop_zero]

/-- C5 -- The merge operation is idempotent: for any two reading sets A
and B, merging the output of `merge(A, B)` with the empty set yields
exactly `merge(A, B)` again. -/
theorem claim_C5_merge_idempotent (A B : List SensorDataPoint) :
    mergePoints (mergePoints A B) [] = mergePoints A B :=
  mergePoints_empty_right (mergePoints_sorted A B) (mergePoints_nodup A B)
    (mergePoints_length_le A B)

/-! ### First occurrence wins: historical beats live on equal timestamps (C10)

`[...dbData, ...wsData]` places every historical point before every live
point; the sort is stable, so among equal-timestamp entries the historical
one still comes first, and the `filter`/`findIndex` deduplication keeps
exactly that first entry. -/

theorem filter_insertPt (x : SensorDataPoint) (t : Int) :
    ∀ (acc : List SensorDataPoint), TsSorted acc →
      (insertPt x acc).filter (fun y => y.timestamp == t) =
        if x.timestamp = t then
          acc.filter (fun y => y.timestamp == t) ++ [x]
        else acc.filter (fun y => y.timestamp == t) := by
  intro acc
  induction acc with
  | nil =>
    intro _
    by_cases hxt : x.timestamp = t <;>
      simp [insertPt, List.filter_cons, hxt]
  | cons y ys ih =>
    intro hacc
    rcases List.pairwise_cons.mp hacc with ⟨hy, hys⟩
    by_cases hle : y.timestamp ≤ x.timestamp
    · simp only [insertPt, if_pos hle, List.filter_cons]
      rw [ih hys]
      by_cases hxt : x.timestamp = t <;> by_cases hyt : y.timestamp = t <;>
        simp [hxt, hyt]
    · have hlt : x.timestamp < y.timestamp := lt_of_not_le hle
      simp only [insertPt, if_neg hle]
      by_cases hxt : x.timestamp = t
      · have hnil : (y :: ys).filter (fun y => y.timestamp == t) = [] := by
          rw [List.filter_eq_nil_iff]
          intro b hb
          have hbge : y.timestamp ≤ b.timestamp := by
            rcases List.mem_cons.mp hb with rfl | hb'
            · exact le_refl _
            · exact hy b hb'
          simp only [beq_iff_eq]
          omega
        simp [List.filter_cons, hxt, hnil]
      · simp [List.filter_cons, hxt]

theorem filter_foldl_insertPt (t : Int) :
    ∀ (l acc : List SensorDataPoint), TsSorted acc →
      ((l.foldl (fun acc x => insertPt x acc) acc).filter
          (fun y => y.timestamp == t)) =
        acc.filter (fun y => y.timestamp == t) ++
          l.filter (fun y => y.timestamp == t) := by
  intro l
  induction l with
  | nil => intro acc _; simp
  | cons x xs ih =>
    intro acc hacc
    rw [List.foldl_cons, ih (insertPt x acc) (insertPt_sorted hacc),
      filter_insertPt x t acc hacc, List.filter_cons]
    by_cases hxt : x.timestamp = t <;> simp [hxt]

/-- Stability of the embedded sort: for every timestamp `t`, the
subsequence of entries with timestamp `t` is unchanged by `sortByTs`. -/
theorem sortByTs_filter (l : List SensorDataPoint) (t : Int) :
    (sortByTs l).filter (fun y => y.timestamp == t) =
      l.filter (fun y => y.timestamp == t) := by
  have := filter_foldl_insertPt t l [] (List.Pairwise.nil)
  simpa [sortByTs] using this

/-- Every surviving entry of the deduplication is the first entry of the
input carrying its timestamp. -/
theorem dedupByFirstTs_head :
    ∀ (l seen : List SensorDataPoint) (a : SensorDataPoint),
      a ∈ dedupByFirstTs seen l →
      (l.filter (fun y => y.timestamp == a.timestamp)).head? = some a := by
  intro l
  induction l with
  | nil => intro seen a ha; simp [dedupByFirstTs] at ha
  | cons x xs ih =>
    intro seen a ha
    by_cases h : seen.any (fun y => y.timestamp == x.timestamp)
    · simp only [dedupByFirstTs, if_pos h] at ha
      have hne : a.timestamp ≠ x.timestamp :=
        dedupByFirstTs_mem_not_seen xs (x :: seen) a ha x (List.mem_cons_self x seen)
      rw [List.filter_cons]
      have : (x.timestamp == a.timestamp) = false := by
        simpa using fun heq => hne heq.symm
      simp only [this, Bool.false_eq_true, if_neg, not_false_iff]
      exact ih (x :: seen) a ha
    · simp only [dedupByFirstTs, if_neg h] at ha
      rcases List.mem_cons.mp ha with rfl | ha'
      · rw [List.filter_cons]
        simp
      · have hne : a.timestamp ≠ x.timestamp :=
          dedupByFirstTs_mem_not_seen xs (x :: seen) a ha' x (List.mem_cons_self x seen)
        rw [List.filter_cons]
        have : (x.timestamp == a.timestamp) = false := by
          simpa using fun heq => hne heq.symm
        simp only [this, Bool.false_eq_true, if_neg, not_false_iff]
        exact ih (x :: seen) a ha'

/-- Every entry of the merge output is the first entry of the concatenated
input `dbData ++ wsData` carrying its timestamp. -/
theorem mergePoints_mem_head (db ws : List SensorDataPoint)
    (p : SensorDataPoint) (hp : p ∈ mergePoints db ws) :
    ((db ++ ws).filter (fun y => y.timestamp == p.timestamp)).head? = some p := by
  have hp' : p ∈ dedupByFirstTs [] (sortByTs (db ++ ws)) :=
    (List.drop_sublist _ _).mem hp
  have := dedupByFirstTs_head (sortByTs (db ++ ws)) [] p hp'
  rwa [sortByTs_filter] at this

/-- C10 -- When a historical (REST-fetched) reading and a live
(push-delivered) reading for the same room carry exactly equal timestamps,
the merged output entry at that timestamp is the (first) historical
reading's point — its temperature and humidity values — not the live
reading's: historical points precede live points before the stable sort,
and deduplication keeps the first occurrence. -/
theorem claim_C10_historical_wins_on_equal_timestamp
    (readings : List SensorReading) (wsData : List SensorDataPoint)
    (t : Int) (r : SensorReading) (hr : r ∈ readings) (hrt : r.timestamp = t) :
    ∀ p ∈ getChartData readings wsData, p.timestamp = t →
      some p = ((readings.map toDataPoint).filter
          (fun y => y.timestamp == t)).head? ∧
      p ∈ readings.map toDataPoint := by
  intro p hp hpt
  have hhead := mergePoints_mem_head (readings.map toDataPoint) wsData p hp
  rw [hpt, List.filter_append] at hhead
  cases hfd : (readings.map toDataPoint).filter (fun y => y.timestamp == t) with
  | nil =>
    exfalso
    have hmem : toDataPoint r ∈
        (readings.map toDataPoint).filter (fun y => y.timestamp == t) := by
      rw [List.mem_filter]
      refine ⟨List.mem_map_of_mem toDataPoint hr, ?_⟩
      simp [toDataPoint, hrt]
    rw [hfd] at hmem
    exact List.not_mem_nil _ hmem
  | cons q rest =>
    rw [hfd] at hhead
    simp only [List.cons_append, List.head?_cons, Option.some.injEq] at hhead
    constructor
    · rw [List.head?_cons, hhead]
    · have : q ∈ (readings.map toDataPoint).filter (fun y => y.timestamp == t) := by
        rw [hfd]; exact List.mem_cons_self q rest
      rw [← hhead]
      exact (List.mem_filter.mp this).1

/-- A historical reading at t = 100. -/
def w10Reading : SensorReading :=
  { roomId := "R", temperature := 250, humidity := 500, timestamp := 100 }

/-- A live point at the same t = 100 with different values. -/
def w10Live : SensorDataPoint :=
  { timestamp := 100, temperature := 99 / 10, humidity := 88 / 10 }

/-- Witness for C10: with one historical reading and one live point at the
identical timestamp 100, the merged output carries the historical values
(25.0 °C / 50.0 %), and the theorem applies with its hypotheses discharged
at this concrete input. -/
theorem claim_C10_witness :
    (getChartData [w10Reading] [w10Live] = [toDataPoint w10Reading]) ∧
    (∀ p ∈ getChartData [w10Reading] [w10Live], p.timestamp = 100 →
      some p = (([w10Reading].map toDataPoint).filter
          (fun y => y.timestamp == 100)).head? ∧
      p ∈ [w10Reading].map toDataPoint) :=
  ⟨rfl,
    claim_C10_historical_wins_on_equal_timestamp [w10Reading] [w10Live] 100
      w10Reading (List.mem_cons_self _ _) rfl⟩

/-! ### The reconnecting push channel (`useWebSocket`)

State held by the hook: `isConnected`, `reconnectAttempts`, and the pending
reconnect timer.  The handlers are embedded as state transformers; the
React re-render timing around `setReconnectAttempts` is outside the model,
which reads the handlers' bodies directly:

```js
ws.onopen = () => { setIsConnected(true); setReconnectAttempts(0); };
ws.onclose = () => {
  setIsConnected(false);
  const timeout = Math.min(1000 * Math.pow(2, reconnectAttempts), 30000);
  reconnectTimeoutRef.current = setTimeout(() => {
    setReconnectAttempts(prev => prev + 1);
    connect();
  }, timeout);
};
```
-/

structure WsState where
  isConnected : Bool
  reconnectAttempts : Nat
  pendingReconnectDelay : Option Nat
deriving DecidableEq, Repr

/-- Hook state on mount: disconnected, zero attempts, no pending timer. -/
def initialWsState : WsState :=
  { isConnected := false, reconnectAttempts := 0, pendingReconnectDelay := none }

/-- `Math.min(1000 * Math.pow(2, reconnectAttempts), 30000)`. -/
def closeTimeout (s : WsState) : Nat :=
  min (1000 * 2 ^ s.reconnectAttempts) 30000

/-- `ws.onopen`: mark connected, reset the retry counter to zero. -/
def onOpen (s : WsState) : WsState :=
  { s with isConnected := true, reconnectAttempts := 0 }

/-- `ws.onclose`: mark disconnected and schedule a reconnect attempt after
`closeTimeout` milliseconds. -/
def onClose (s : WsState) : WsState :=
  { s with isConnected := false, pendingReconnectDelay := some (closeTimeout s) }

/-- The `setTimeout` callback: increment the attempt counter and call
`connect()` again (the timer is now spent). -/
def onReconnectTimer (s : WsState) : WsState :=
  { s with pendingReconnectDelay := none,
           reconnectAttempts := s.reconnectAttempts + 1 }

/-- The delays scheduled over `n` consecutive failures (each failure: the
connection closes, then the reconnect timer fires and the retry
reconnects, which fails again). -/
def failureDelays : Nat → WsState → List Nat
  | 0, _ => []
  | n + 1, s => closeTimeout s :: failureDelays n (onReconnectTimer (onClose s))

/-- The hook state after `n` consecutive failures. -/
def afterFailures : Nat → WsState → WsState
  | 0, s => s
  | n + 1, s => afterFailures n (onReconnectTimer (onClose s))

theorem afterFailures_attempts :
    ∀ (n : Nat) (s : WsState),
      (afterFailures n s).reconnectAttempts = s.reconnectAttempts + n := by
  intro n
  induction n with
  | zero => intro s; rfl
  | succ m ih =>
    intro s
    show (afterFailures m _).reconnectAttempts = _
    rw [ih]
    simp [onReconnectTimer, onClose]
    omega

theorem failureDelays_formula :
    ∀ (n : Nat) (s : WsState),
      failureDelays n s =
        (List.range n).map
          (fun k => min (1000 * 2 ^ (s.reconnectAttempts + k)) 30000) := by
  intro n
  induction n with
  | zero => intro s; rfl
  | succ m ih =>
    intro s
    show closeTimeout s :: failureDelays m (onReconnectTimer (onClose s)) = _
    rw [ih, List.range_succ_eq_map, List.map_cons, List.map_map]
    have hfun : (fun k =>
          min (1000 * 2 ^ ((onReconnectTimer (onClose s)).reconnectAttempts + k))
            30000) =
        ((fun k => min (1000 * 2 ^ (s.reconnectAttempts + k)) 30000) ∘
          Nat.succ) := by
      funext k
      simp only [Function.comp, onReconnectTimer, onClose]
      have h : s.reconnectAttempts + 1 + k = s.reconnectAttempts + (k + 1) := by
        omega
      rw [h]
    rw [hfun]
    have hhead : closeTimeout s =
        min (1000 * 2 ^ (s.reconnectAttempts + 0)) 30000 := by
      simp [closeTimeout]
    rw [hhead]

/-- C3 -- On the n-th consecutive close since the last successful open the
scheduled reconnection delay is `min(1000 * 2^(n-1), 30000)` ms and the
attempt counter is then incremented; 5 consecutive failures yield
1000, 2000, 4000, 8000, 16000 ms, a 6th failure is clamped to 30000 ms,
and a reconnect is scheduled on every one of the n failures — there is no
maximum-attempts cutoff. -/
theorem claim_C3_backoff_sequence :
    (∀ n : Nat, failureDelays n initialWsState =
      (List.range n).map (fun k => min (1000 * 2 ^ k) 30000)) ∧
    (∀ n : Nat, (afterFailures n initialWsState).reconnectAttempts = n) ∧
    (∀ n : Nat, (failureDelays n initialWsState).length = n) ∧
    failureDelays 5 initialWsState = [1000, 2000, 4000, 8000, 16000] ∧
    failureDelays 6 initialWsState = [1000, 2000, 4000, 8000, 16000, 30000] := by
  have hform : ∀ n : Nat, failureDelays n initialWsState =
      (List.range n).map (fun k => min (1000 * 2 ^ k) 30000) := by
    intro n
    rw [failureDelays_formula]
    simp [initialWsState]
  refine ⟨hform, ?_, ?_, ?_, ?_⟩
  · intro n
    rw [afterFailures_attempts]
    simp [initialWsState]
  · intro n
    rw [hform, List.length_map, List.length_range]
  · decide
  · decide

/-- C4 -- After any successful open of the push-channel connection the
retry counter is reset to zero, so whatever the state before that open,
the delay scheduled for the next failure is 1000 ms. -/
theorem claim_C4_reset_on_open (s : WsState) :
    (onOpen s).reconnectAttempts = 0 ∧ closeTimeout (onOpen s) = 1000 := by
  constructor
  · rfl
  · rfl

/-! ### Inbound message dispatch (`ws.onmessage`) (C6)

The raw socket payload is `JSON.parse`d inside a `try`; a parse failure is
caught and logged, so a malformed message reaches no callback and throws
nothing out of the handler (the embedding is a total function).  A parsed
message is switched on `message.type`; each recognized kind fires its
callback only when the callback was registered *and* `message.data` is
truthy; any other kind falls through the `switch` and is dropped. -/

inductive JsonValue where
  | null
  | bool (b : Bool)
  | num (n : Int)
  | str (s : String)
  | arr (elems : List JsonValue)
  | obj (fields : List (String × JsonValue))

/-- JavaScript truthiness of `message.data` (`undefined` when the field is
absent). -/
def truthy : Option JsonValue → Bool
  | none => false
  | some JsonValue.null => false
  | some (JsonValue.bool b) => b
  | some (JsonValue.num n) => n != 0
  | some (JsonValue.str s) => !(s == "")
  | some (JsonValue.arr _) => true
  | some (JsonValue.obj _) => true

/-- An inbound frame: either unparseable, or a parsed
`{type, data?, ...}` object. -/
inductive PushMessage where
  | malformed
  | parsed (type : String) (data : Option JsonValue)

/-- Which of the three optional callbacks the caller registered. -/
structure RegisteredHandlers where
  hasSensorReading : Bool
  hasAlert : Bool
  hasLifecycleUpdate : Bool

/-- The observable effect of one `onmessage` invocation: at most one
callback fires, with the payload handed to it. -/
inductive DispatchedCall where
  | sensorReading (d : JsonValue)
  | alert (d : JsonValue)
  | lifecycleUpdate (d : JsonValue)

/-- `if (onX && message.data) onX(message.data)`. -/
def guardCall (present : Bool) (data : Option JsonValue)
    (mk : JsonValue → DispatchedCall) : Option DispatchedCall :=
  match data with
  | some d => if present && truthy (some d) then some (mk d) else none
  | none => none

/-- The `ws.onmessage` handler: parse (malformed → caught, dropped), then
switch on the message type. -/
def onMessage (h : RegisteredHandlers) (m : PushMessage) : Option DispatchedCall :=
  match m with
  | PushMessage.malformed => none
  | PushMessage.parsed t data =>
    if t = "sensor_reading" then guardCall h.hasSensorReading data DispatchedCall.sensorReading
    else if t = "alert" then guardCall h.hasAlert data DispatchedCall.alert
    else if t = "lifecycle_update" then
      guardCall h.hasLifecycleUpdate data DispatchedCall.lifecycleUpdate
    else if t = "connected" then none
    else none

/-- C6 -- An inbound push message whose type is not one of
sensor_reading / alert / lifecycle_update / connected, and a malformed
(unparseable) message, invoke no registered callback (the handler is a
total function, hence never throws); a recognized kind whose callback is
absent is likewise discarded without effect. -/
theorem claim_C6_unknown_or_malformed_dropped :
    (∀ (h : RegisteredHandlers) (t : String) (data : Option JsonValue),
      t ≠ "sensor_reading" → t ≠ "alert" → t ≠ "lifecycle_update" →
      t ≠ "connected" → onMessage h (PushMessage.parsed t data) = none) ∧
    (∀ h : RegisteredHandlers, onMessage h PushMessage.malformed = none) ∧
    (∀ (h : RegisteredHandlers) (data : Option JsonValue),
      h.hasSensorReading = false →
        onMessage h (PushMessage.parsed "sensor_reading" data) = none) ∧
    (∀ (h : RegisteredHandlers) (data : Option JsonValue),
      h.hasAlert = false → onMessage h (PushMessage.parsed "alert" data) = none) ∧
    (∀ (h : RegisteredHandlers) (data : Option JsonValue),
      h.hasLifecycleUpdate = false →
        onMessage h (PushMessage.parsed "lifecycle_update" data) = none) := by
  refine ⟨?_, fun _ => rfl, ?_, ?_, ?_⟩
  · intro h t data h1 h2 h3 h4
    simp [onMessage, h1, h2, h3, h4]
  · intro h data hreg
    cases data with
    | none => simp [onMessage, guardCall]
    | some d => simp [onMessage, guardCall, hreg]
  · intro h data hreg
    cases data with
    | none => simp [onMessage, guardCall]
    | some d => simp [onMessage, guardCall, hreg]
  · intro h data hreg
    cases data with
    | none => simp [onMessage, guardCall]
    | some d => simp [onMessage, guardCall, hreg]

/-- Handlers with every callback registered, as in `SensorMonitoring`. -/
def allHandlers : RegisteredHandlers :=
  { hasSensorReading := true, hasAlert := true, hasLifecycleUpdate := true }

/-- Witness for C6: the spec's `type: "unexpected_kind"` probe, a
malformed frame, and a sensor_reading frame with its callback absent, all
dropped. -/
theorem claim_C6_witness :
    onMessage allHandlers
      (PushMessage.parsed "unexpected_kind" (some (JsonValue.num 1))) = none ∧
    onMessage allHandlers PushMessage.malformed = none ∧
    onMessage { hasSensorReading := false, hasAlert := true, hasLifecycleUpdate := true }
      (PushMessage.parsed "sensor_reading" (some (JsonValue.num 1))) = none :=
  ⟨claim_C6_unknown_or_malformed_dropped.1 allHandlers "unexpected_kind"
      (some (JsonValue.num 1)) (by decide) (by decide) (by decide) (by decide),
    claim_C6_unknown_or_malformed_dropped.2.1 allHandlers,
    claim_C6_unknown_or_malformed_dropped.2.2.1 _ (some (JsonValue.num 1)) rfl⟩

/-! ### Request cache layer and the room-status mutation (C7)

The mutation wiring is in `RoomManagement.tsx`:

```js
const updateRoomStatusMutation = useMutation({
  mutationFn: ... apiRequest("PATCH", `/api/rooms/${roomId}/status`, ...),
  onSuccess: () => { toast(...); queryClient.invalidateQueries({ queryKey: [API_ENDPOINTS.ROOMS.LIST] }); },
  onError: (error) => { ... toast error ... },
});
```

so the rooms-list key is invalidated exactly in the success callback.  The
cache itself (`queryClient.ts`) is not among the sources; `QueryCache`,
`invalidateQueries` and `readQuery` below are modelled from the spec. -/

inductive RoomStatus where
  | available | occupied | cooldown | maintenance
deriving DecidableEq, Repr

structure Room where
  id : String
  status : RoomStatus
deriving DecidableEq, Repr

/-- Modelled from the spec: the key-addressed request cache entry for one
logical key (the repository's `queryClient.ts`, which instantiates the
cache, is absent from the sources).  "invalidate(keySet) after mutation
success: marks the listed keys stale, causing the next read to re-fetch";
a fresh cached value is served without a network call. -/
structure QueryCache (V : Type) where
  cached : Option V
  stale : Bool
deriving DecidableEq, Repr

/-- Modelled from the spec: mark the key stale. -/
def invalidateQueries {V : Type} (c : QueryCache V) : QueryCache V :=
  { c with stale := true }

/-- Modelled from the spec: a read serves the cached value while fresh and
re-fetches from the server (stub backend value `server`) when the key is
stale or empty, storing the result. -/
def readQuery {V : Type} (server : V) (c : QueryCache V) : V × QueryCache V :=
  match c.cached, c.stale with
  | some v, false => (v, c)
  | _, _ => (server, { cached := some server, stale := false })

/-- The settle step of `updateRoomStatusMutation` (from the source):
`onSuccess` invalidates the rooms-list key; `onError` leaves the cache
alone and surfaces the error. -/
def mutationSettled {V : Type} (result : Except String Unit)
    (c : QueryCache V) : QueryCache V × Option String :=
  match result with
  | Except.ok _ => (invalidateQueries c, none)
  | Except.error e => (c, some e)

/-- Room R as the cache sees it before the mutation. -/
def roomR_available : Room := { id := "R", status := RoomStatus.available }

/-- Room R as the stub backend reports it after the mutation. -/
def roomR_occupied : Room := { id := "R", status := RoomStatus.occupied }

/-- C7 -- Cache invalidation of the affected key happens iff the
mutation's success response was observed: after a successful room-status
mutation the next read of the rooms key re-fetches and reflects the
server's updated value; a failed mutation leaves the cache untouched and
surfaces the error to the caller.  Concretely, with room R cached as
available and a stub backend answering occupied after the mutation, the
post-mutation read returns occupied. -/
theorem claim_C7_invalidate_iff_success :
    (∀ (V : Type) (c : QueryCache V) (server : V),
      (readQuery server (mutationSettled (Except.ok ()) c).1).1 = server) ∧
    (∀ (V : Type) (c : QueryCache V) (e : String),
      (mutationSettled (Except.error e) c).1 = c ∧
      (mutationSettled (Except.error e) c).2 = some e) ∧
    (∀ (V : Type) (c : QueryCache V) (r : Except String Unit),
      (mutationSettled r c).1.stale = (r.isOk || c.stale)) ∧
    (readQuery [roomR_occupied]
        (mutationSettled (Except.ok ())
          { cached := some [roomR_available], stale := false }).1).1 =
      [roomR_occupied] := by
  refine ⟨?_, ?_, ?_, rfl⟩
  · intro V c server
    obtain ⟨cch, cst⟩ := c
    cases cch <;> rfl
  · intro V c e
    exact ⟨rfl, rfl⟩
  · intro V c r
    cases r with
    | ok _ => rfl
    | error e => rfl

/-! ### Polling fetch failure semantics (C8)

The `rooms-sensor-data` query of the sensor-monitoring page runs, per
room:

```js
const [roomWithData, readings] = await Promise.all([
  fetch(`/api/rooms/${room.id}/sensor-data`).then(r => r.ok ? r.json() : null),
  fetch(`/api/sensor/readings/${room.id}?limit=50`).then(r => r.ok ? r.json() : [])
]);
return { room, latestReading: roomWithData?.sensorReadings?.[0],
         lifecycle: roomWithData?.lifecycle, readings };
```

A rejected `fetch` (network error) propagates out of `Promise.all` and
rejects the whole `queryFn`; a non-success HTTP status is absorbed,
substituting `null` / `[]`.  The query has `refetchInterval: 30000`, a
constant.  The cache layer's reaction to a settled tick is modelled from
the spec (`queryClient.ts` absent from the sources). -/

/-- Outcome of one `fetch`: the promise rejects (network error) or
resolves with an HTTP status (`ok`) and a parsed body. -/
inductive FetchOutcome (α : Type) where
  | netError
  | response (ok : Bool) (body : α)
deriving DecidableEq, Repr

/-- Body of `/api/rooms/{id}/sensor-data`. -/
structure RoomSensorPayload where
  sensorReadings : List SensorReading
  lifecycle : Option String
deriving DecidableEq, Repr

/-- One element of the `rooms-sensor-data` query result. -/
structure RoomSensorData where
  room : Room
  latestReading : Option SensorReading
  lifecycle : Option String
  readings : List SensorReading
deriving DecidableEq, Repr

/-- The per-room body of the queryFn: reject if either fetch rejected,
otherwise build the entry, substituting `null` / `[]` on non-ok status. -/
def roomQueryEntry (room : Room) (sensorFetch : FetchOutcome RoomSensorPayload)
    (readingsFetch : FetchOutcome (List SensorReading)) :
    Except Unit RoomSensorData :=
  match sensorFetch, readingsFetch with
  | FetchOutcome.netError, _ => Except.error ()
  | _, FetchOutcome.netError => Except.error ()
  | FetchOutcome.response ok1 b1, FetchOutcome.response ok2 b2 =>
    Except.ok
      { room := room
        latestReading := if ok1 then b1.sensorReadings.head? else none
        lifecycle := if ok1 then b1.lifecycle else none
        readings := if ok2 then b2 else [] }

/-- The whole queryFn (`Promise.all` over the rooms): any rejection
rejects the tick. -/
def roomsSensorQueryFn :
    List (Room × FetchOutcome RoomSensorPayload × FetchOutcome (List SensorReading)) →
    Except Unit (List RoomSensorData)
  | [] => Except.ok []
  | (room, sf, rf) :: rest =>
    match roomQueryEntry room sf rf with
    | Except.error _ => Except.error ()
    | Except.ok e =>
      match roomsSensorQueryFn rest with
      | Except.error _ => Except.error ()
      | Except.ok es => Except.ok (e :: es)

/-- Modelled from the spec: on a polling tick the cache layer stores a
successful queryFn result and keeps the previous value when the queryFn
rejects (the repository's `queryClient.ts` is absent from the sources). -/
def pollTick {V : Type} (cache : Option V) (result : Except Unit V) : Option V :=
  match result with
  | Except.error _ => cache
  | Except.ok v => some v

/-- `refetchInterval: 30000` of the sensor-monitoring query — a constant,
independent of how the previous tick fared. -/
def sensorMonitoringRefetchInterval : Nat := 30000

/-! The customer app runs its own `rooms-sensor-data` query:

```js
rooms.map(async (room) => {
  try {
    const response = await fetch(QUERY_HELPERS.sensorsByRoom(room.id, 1));
    if (response.ok) {
      const readings = await response.json();
      const reading = readings.length > 0 ? readings[0] : null;
      return { roomId: room.id, reading };
    }
    return { roomId: room.id, reading: null };
  } catch {
    return { roomId: room.id, reading: null };
  }
})
```

Here the `try`/`catch` absorbs a rejected `fetch` (network error) and the
`r.ok` check absorbs a non-success status alike: each failing room yields
`{roomId, reading: null}` and the `Promise.all` always resolves, so this
queryFn never rejects. -/

/-- One element of the customer app's `rooms-sensor-data` query result. -/
structure RoomReadingEntry where
  roomId : String
  reading : Option SensorReading
deriving DecidableEq, Repr

/-- The per-room body of the customer app's queryFn. -/
def customerRoomEntry (roomId : String)
    (f : FetchOutcome (List SensorReading)) : RoomReadingEntry :=
  match f with
  | FetchOutcome.netError => { roomId := roomId, reading := none }
  | FetchOutcome.response ok readings =>
    if ok then { roomId := roomId, reading := readings.head? }
    else { roomId := roomId, reading := none }

/-- The whole customer-app queryFn: the per-room `try`/`catch` means the
`Promise.all` always resolves — the tick never rejects. -/
def customerSensorQueryFn
    (inputs : List (String × FetchOutcome (List SensorReading))) :
    Except Unit (List RoomReadingEntry) :=
  Except.ok (inputs.map fun e => customerRoomEntry e.1 e.2)

/-- `refetchInterval: 10000` of the customer-app query — likewise a
constant. -/
def customerAppRefetchInterval : Nat := 10000

def c8room : Room := { id := "R1", status := RoomStatus.available }

def c8reading : SensorReading :=
  { roomId := "R1", temperature := 250, humidity := 500, timestamp := 100 }

/-- The cached `rooms-sensor-data` value before the failing tick. -/
def c8oldCache : Option (List RoomSensorData) :=
  some [{ room := c8room, latestReading := some c8reading,
          lifecycle := some "growth", readings := [c8reading] }]

/-- The customer app's cached `rooms-sensor-data` value before a failing
tick. -/
def c8oldCustomerCache : Option (List RoomReadingEntry) :=
  some [{ roomId := "R1", reading := some c8reading }]

/-- C8 counterexample -- failing polling fetches do NOT leave the
previously cached value in place: in the monitoring view a tick whose
fetches return a non-success HTTP status (e.g. 404/500) resolves the
queryFn with substituted `null` / `[]` fields and overwrites the cache;
in the customer view even a *network error* is absorbed per room and the
cache is overwritten with `{roomId, reading: null}`. -/
theorem claim_C8_counterexample :
    pollTick c8oldCache
        (roomsSensorQueryFn
          [(c8room, FetchOutcome.response false { sensorReadings := [], lifecycle := none },
            FetchOutcome.response false [])]) ≠ c8oldCache ∧
    pollTick c8oldCache
        (roomsSensorQueryFn
          [(c8room, FetchOutcome.response false { sensorReadings := [], lifecycle := none },
            FetchOutcome.response false [])]) =
      some [{ room := c8room, latestReading := none, lifecycle := none,
              readings := [] }] ∧
    pollTick c8oldCustomerCache
        (customerSensorQueryFn [("R1", FetchOutcome.netError)]) ≠
      c8oldCustomerCache ∧
    pollTick c8oldCustomerCache
        (customerSensorQueryFn [("R1", FetchOutcome.netError)]) =
      some [{ roomId := "R1", reading := none }] ∧
    pollTick c8oldCustomerCache
        (customerSensorQueryFn [("R1", FetchOutcome.response false [])]) =
      some [{ roomId := "R1", reading := none }] := by
  refine ⟨?_, rfl, ?_, rfl, rfl⟩
  · decide
  · decide

theorem roomsSensorQueryFn_error_of_netError :
    ∀ (inputs : List (Room × FetchOutcome RoomSensorPayload ×
        FetchOutcome (List SensorReading))),
      (∃ e ∈ inputs, e.2.1 = FetchOutcome.netError ∨
        e.2.2 = FetchOutcome.netError) →
      roomsSensorQueryFn inputs = Except.error () := by
  intro inputs
  induction inputs with
  | nil => intro h; rcases h with ⟨e, he, _⟩; exact absurd he (List.not_mem_nil e)
  | cons hd tl ih =>
    intro h
    obtain ⟨room, sf, rf⟩ := hd
    rcases h with ⟨e, he, herr⟩
    rcases List.mem_cons.mp he with rfl | he'
    · rcases herr with h1 | h2
      · simp only at h1
        subst h1
        simp [roomsSensorQueryFn, roomQueryEntry]
      · simp only at h2
        subst h2
        cases sf <;> simp [roomsSensorQueryFn, roomQueryEntry]
    · have htl : roomsSensorQueryFn tl = Except.error () := ih ⟨e, he', herr⟩
      show (match roomQueryEntry room sf rf with
        | Except.error _ => Except.error ()
        | Except.ok e =>
          match roomsSensorQueryFn tl with
          | Except.error _ => Except.error ()
          | Except.ok es => Except.ok (e :: es)) = Except.error ()
      rw [htl]
      cases roomQueryEntry room sf rf <;> rfl

/-- C8 as amended -- the two cited polling queryFns diverge from the
claim differently.  Monitoring view (`SensorMonitoring`): a *network
error* rejects the whole queryFn and leaves the previously cached value
in place, while a non-success HTTP status resolves the queryFn with
substituted `null` / `[]` fields and overwrites the cache.  Customer view
(`CustomerApp`): the per-room `try`/`catch` absorbs network errors and
non-success statuses alike, the queryFn always resolves, and every
failing per-room fetch overwrites the cached entry with
`{roomId, reading: null}`.  In both views a failed tick is simply retried
at the next fixed interval (30000 ms resp. 10000 ms), a constant — no
exponential backoff. -/
theorem claim_C8_polling_failure_semantics
    (cache : Option (List RoomSensorData))
    (custCache : Option (List RoomReadingEntry))
    (inputs : List (Room × FetchOutcome RoomSensorPayload ×
      FetchOutcome (List SensorReading)))
    (custInputs : List (String × FetchOutcome (List SensorReading)))
    (roomId : String) (f : FetchOutcome (List SensorReading))
    (h : ∃ e ∈ inputs, e.2.1 = FetchOutcome.netError ∨
      e.2.2 = FetchOutcome.netError)
    (hf : f = FetchOutcome.netError ∨
      ∃ body, f = FetchOutcome.response false body) :
    pollTick cache (roomsSensorQueryFn inputs) = cache ∧
    pollTick custCache (customerSensorQueryFn custInputs) =
      some (custInputs.map fun e => customerRoomEntry e.1 e.2) ∧
    customerRoomEntry roomId f = { roomId := roomId, reading := none } ∧
    sensorMonitoringRefetchInterval = 30000 ∧
    customerAppRefetchInterval = 10000 := by
  refine ⟨?_, rfl, ?_, rfl, rfl⟩
  · rw [roomsSensorQueryFn_error_of_netError inputs h]
    rfl
  · rcases hf with rfl | ⟨body, rfl⟩
    · rfl
    · rfl

/-- Witness for the amended C8: a network error keeps the monitoring
view's concrete cached value, the customer view's tick always stores the
freshly computed entries, and a network error yields the null entry. -/
theorem claim_C8_witness :
    pollTick c8oldCache
        (roomsSensorQueryFn
          [(c8room, FetchOutcome.response true { sensorReadings := [c8reading], lifecycle := some "growth" },
            FetchOutcome.netError)]) = c8oldCache ∧
    pollTick c8oldCustomerCache
        (customerSensorQueryFn [("R1", FetchOutcome.netError)]) =
      some ([("R1", FetchOutcome.netError)].map
        fun e => customerRoomEntry e.1 e.2) ∧
    customerRoomEntry "R1" FetchOutcome.netError =
      { roomId := "R1", reading := none } ∧
    sensorMonitoringRefetchInterval = 30000 ∧
    customerAppRefetchInterval = 10000 :=
  claim_C8_polling_failure_semantics c8oldCache c8oldCustomerCache _ _
    "R1" FetchOutcome.netError
    ⟨_, List.mem_cons_self _ _, Or.inr rfl⟩ (Or.inl rfl)

/-! ### Outbound requests and the bearer credential (C9)

`dismissAlert` (sensor monitoring page) and `handlePhoneSearch` (customer
app) issue raw `fetch` calls:

```js
await fetch(`/api/alerts/${alertId}/dismiss`, { method: 'PATCH' });

const response = await fetch(API_ENDPOINTS.CUSTOMERS.VERIFY_PIN, {
  method: 'POST',
  headers: { 'Content-Type': 'application/json' },
  body: JSON.stringify({ phone: customerPhone, pin: customerPin }),
});
```

Neither request carries an `Authorization` header and neither path checks
for a stored credential before sending.  (The `apiRequest` helper of the
absent `queryClient.ts` is where the spec's bearer-attachment would live;
these two cited call sites bypass any such helper.)  The backend base URL
prefix of `API_ENDPOINTS` is elided. -/

structure HttpRequest where
  method : String
  url : String
  headers : List (String × String)
  body : Option (List (String × String))
deriving DecidableEq, Repr

/-- The request issued by `dismissAlert`, built from the alert id alone —
no credential is consulted. -/
def dismissAlertRequest (alertId : String) : HttpRequest :=
  { method := "PATCH"
    url := "/api/alerts/" ++ alertId ++ "/dismiss"
    headers := []
    body := none }

/-- Result of `handlePhoneSearch` before any network activity: a local
validation error, or the request it sends. -/
inductive PinSearchStep where
  | validationError (message : String)
  | sends (req : HttpRequest)
deriving DecidableEq, Repr

/-- The validation and request construction of `handlePhoneSearch`: phone
shorter than 10 or PIN not exactly 4 characters is rejected locally;
otherwise the verify-PIN request is sent with only a Content-Type header. -/
def handlePhoneSearch (customerPhone customerPin : String) : PinSearchStep :=
  if customerPhone.length < 10 then
    PinSearchStep.validationError "전화번호를 입력해주세요"
  else if customerPin.length ≠ 4 then
    PinSearchStep.validationError "PIN 4자리를 입력해주세요"
  else
    PinSearchStep.sends
      { method := "POST"
        url := "/api/customers/verify_pin/"
        headers := [("Content-Type", "application/json")]
        body := some [("phone", customerPhone), ("pin", customerPin)] }

/-- A request carries a bearer credential iff it has an `Authorization`
header. -/
def hasBearerCredential (r : HttpRequest) : Bool :=
  r.headers.any (fun h => h.1 == "Authorization")

/-- The exact request `handlePhoneSearch` sends for phone 01012345678 and
PIN 1234. -/
def verifyPinRequestExample : HttpRequest :=
  { method := "POST"
    url := "/api/customers/verify_pin/"
    headers := [("Content-Type", "application/json")]
    body := some [("phone", "01012345678"), ("pin", "1234")] }

/-- C9 counterexample -- two outbound HTTP requests of the cited code
attach no bearer credential and are constructed (and sent) without any
fail-fast credential check: the alert-dismiss PATCH and the verify-PIN
POST. -/
theorem claim_C9_counterexample :
    hasBearerCredential (dismissAlertRequest "a1") = false ∧
    handlePhoneSearch "01012345678" "1234" =
      PinSearchStep.sends verifyPinRequestExample ∧
    hasBearerCredential verifyPinRequestExample = false := by
  refine ⟨rfl, by decide, rfl⟩

/-- C9 as amended -- the alert-dismiss and verify-PIN requests never
attach a bearer credential and are sent whenever local validation passes,
regardless of whether a credential is present; no authorization fail-fast
occurs on these paths. -/
theorem claim_C9_no_bearer_on_raw_fetches :
    (∀ alertId : String,
      hasBearerCredential (dismissAlertRequest alertId) = false) ∧
    (∀ (phone pin : String) (req : HttpRequest),
      handlePhoneSearch phone pin = PinSearchStep.sends req →
        hasBearerCredential req = false) := by
  constructor
  · intro alertId
    rfl
  · intro phone pin req hreq
    unfold handlePhoneSearch at hreq
    by_cases h1 : phone.length < 10
    · rw [if_pos h1] at hreq
      exact absurd hreq (by simp)
    · rw [if_neg h1] at hreq
      by_cases h2 : pin.length ≠ 4
      · rw [if_pos h2] at hreq
        exact absurd hreq (by simp)
      · rw [if_neg h2] at hreq
        cases hreq
        rfl

/-- Witness for the amended C9 at concrete inputs. -/
theorem claim_C9_witness :
    hasBearerCredential (dismissAlertRequest "alert-7") = false ∧
    hasBearerCredential
      { method := "POST"
        url := "/api/customers/verify_pin/"
        headers := [("Content-Type", "application/json")]
        body := some [("phone", "01012345678"), ("pin", "1234")] } = false :=
  ⟨claim_C9_no_bearer_on_raw_fetches.1 "alert-7",
    claim_C9_no_bearer_on_raw_fetches.2 "01012345678" "1234" _ (by decide)⟩

end EnzymeFrontend
